import Mathlib

/-!
Verification of the CouncilWeatherDataAnalysis processing pipeline
(`src/main.py`): cleaning (`clean_weather_data`), anomaly detection
(`detect_anomalies`) and weather classification (`classify_weather`),
shallowly embedded over lists of observation rows.

Modelling conventions:
* a table is a `List` of rows, in pandas row order;
* `temperature` values in the cleaned pipeline are rationals (the spec's
  real-number reading of the float column); the classifier's scalar rule is
  additionally modelled on `FVal`, which adds the IEEE non-finite values
  (`NaN`, `+inf`, `-inf`) so its defensive fallback branch can be analysed;
* `date` values are integers (any linearly ordered parse target works);
* a field that failed `pd.to_numeric(..., errors="coerce")` or
  `pd.to_datetime(..., errors="coerce")` is `none` (the NaN/NaT marker);
* pandas' NaN-valued sample standard deviation (n < 2) is an `Option` that
  is `none`; every ordered comparison against it is false, as in IEEE;
* `x > m + 2*std` is carried root-free as `0 < x - m ∧ 4*var < (x - m)^2`,
  proved equivalent to the square-root form in `gt_add_two_sqrt_iff`.
-/

namespace CouncilWeather

/-- One scalar cell of the `temperature` column under float semantics:
a finite value, one of the two infinities, or NaN. -/
inductive FVal where
  | finite (q : ℚ)
  | posInf
  | negInf
  | nan
deriving DecidableEq, Repr

/-- Float comparison `v < c` against a finite constant `c`
(IEEE: NaN compares false, `-inf < c` true, `+inf < c` false). -/
def fltQ : FVal → ℚ → Bool
  | FVal.finite a, c => decide (a < c)
  | FVal.posInf, _ => false
  | FVal.negInf, _ => true
  | FVal.nan, _ => false

/-- Float comparison `v >= c` against a finite constant `c`
(IEEE: NaN compares false, `+inf >= c` true, `-inf >= c` false). -/
def fgeQ : FVal → ℚ → Bool
  | FVal.finite a, c => decide (c ≤ a)
  | FVal.posInf, _ => true
  | FVal.negInf, _ => false
  | FVal.nan, _ => false

/-- The scalar classification rule of `classify_weather` (src/main.py,
lines 110-119): `np.select` over the five range conditions, first true
condition wins, default `"Unknown"`. -/
def classifyF (t : FVal) : String :=
  if fltQ t 0 then "Very Cold"
  else if fgeQ t 0 && fltQ t 10 then "Cold"
  else if fgeQ t 10 && fltQ t 20 then "Mild"
  else if fgeQ t 20 && fltQ t 30 then "Hot"
  else if fgeQ t 30 then "Very Hot"
  else "Unknown"

/-- An observation row of the cleaned pipeline: `city`, parsed `date`,
finite numeric `temperature`, plus the three derived columns, absent
(`none`) until the stage that adds them runs. -/
structure CRow where
  city : String
  date : Int
  temperature : ℚ
  rolling_avg : Option ℚ := none
  anomaly : Option String := none
  condition : Option String := none
deriving DecidableEq, Repr

/-- `classify_weather` (src/main.py, lines 106-120): writes the
`condition` column; every other column is untouched. -/
def classify_weather (tbl : List CRow) : List CRow :=
  tbl.map (fun r => { r with condition := some (classifyF (FVal.finite r.temperature)) })

theorem classifyF_finite_eq (t : ℚ) :
    classifyF (FVal.finite t) =
      if t < 0 then "Very Cold"
      else if 0 ≤ t ∧ t < 10 then "Cold"
      else if 10 ≤ t ∧ t < 20 then "Mild"
      else if 20 ≤ t ∧ t < 30 then "Hot"
      else if 30 ≤ t then "Very Hot"
      else "Unknown" := by
  simp only [classifyF, fltQ, fgeQ, Bool.and_eq_true, decide_eq_true_eq]

theorem classify_eq_veryCold_iff (t : ℚ) :
    classifyF (FVal.finite t) = "Very Cold" ↔ t < 0 := by
  rw [classifyF_finite_eq]
  split_ifs with h1 h2 h3 h4 h5 <;> simp_all

theorem classify_eq_cold_iff (t : ℚ) :
    classifyF (FVal.finite t) = "Cold" ↔ 0 ≤ t ∧ t < 10 := by
  rw [classifyF_finite_eq]
  split_ifs with h1 h2 h3 h4 h5 <;> simp_all

theorem classify_eq_mild_iff (t : ℚ) :
    classifyF (FVal.finite t) = "Mild" ↔ 10 ≤ t ∧ t < 20 := by
  rw [classifyF_finite_eq]
  split_ifs with h1 h2 h3 h4 h5 <;> simp_all
  intro h
  linarith

theorem classify_eq_hot_iff (t : ℚ) :
    classifyF (FVal.finite t) = "Hot" ↔ 20 ≤ t ∧ t < 30 := by
  rw [classifyF_finite_eq]
  split_ifs with h1 h2 h3 h4 h5 <;> simp_all <;> try (intros; linarith)

theorem classify_eq_veryHot_iff (t : ℚ) :
    classifyF (FVal.finite t) = "Very Hot" ↔ 30 ≤ t := by
  rw [classifyF_finite_eq]
  split_ifs with h1 h2 h3 h4 h5 <;> simp_all <;> try linarith

theorem classify_finite_ne_unknown (t : ℚ) :
    classifyF (FVal.finite t) ≠ "Unknown" := by
  rw [classifyF_finite_eq]
  split_ifs with h1 h2 h3 h4 h5 <;> simp_all

/-- Claim C3: for every finite temperature `t` the classifier's answer is one
of the five range labels, each of the five range conditions holds exactly
when the corresponding label is produced (so exactly one rule matches, the
ranges being mutually exclusive), and on a table `classify_weather` gives
every row the label of its own temperature alone, independent of the other
rows and of the `city` field. -/
theorem classifier_partition :
    (∀ t : ℚ,
      (classifyF (FVal.finite t) = "Very Cold" ∨ classifyF (FVal.finite t) = "Cold" ∨
        classifyF (FVal.finite t) = "Mild" ∨ classifyF (FVal.finite t) = "Hot" ∨
        classifyF (FVal.finite t) = "Very Hot") ∧
      ((t < 0) ↔ classifyF (FVal.finite t) = "Very Cold") ∧
      ((0 ≤ t ∧ t < 10) ↔ classifyF (FVal.finite t) = "Cold") ∧
      ((10 ≤ t ∧ t < 20) ↔ classifyF (FVal.finite t) = "Mild") ∧
      ((20 ≤ t ∧ t < 30) ↔ classifyF (FVal.finite t) = "Hot") ∧
      ((30 ≤ t) ↔ classifyF (FVal.finite t) = "Very Hot")) ∧
    (∀ (tbl : List CRow) (i : Nat),
      ((classify_weather tbl)[i]?).map CRow.condition =
        (tbl[i]?).map (fun r => some (classifyF (FVal.finite r.temperature)))) := by
  constructor
  · intro t
    refine ⟨?_, (classify_eq_veryCold_iff t).symm, (classify_eq_cold_iff t).symm,
      (classify_eq_mild_iff t).symm, (classify_eq_hot_iff t).symm,
      (classify_eq_veryHot_iff t).symm⟩
    rcases lt_or_le t 0 with h | h
    · exact Or.inl ((classify_eq_veryCold_iff t).mpr h)
    rcases lt_or_le t 10 with h10 | h10
    · exact Or.inr (Or.inl ((classify_eq_cold_iff t).mpr ⟨h, h10⟩))
    rcases lt_or_le t 20 with h20 | h20
    · exact Or.inr (Or.inr (Or.inl ((classify_eq_mild_iff t).mpr ⟨h10, h20⟩)))
    rcases lt_or_le t 30 with h30 | h30
    · exact Or.inr (Or.inr (Or.inr (Or.inl ((classify_eq_hot_iff t).mpr ⟨h20, h30⟩))))
    · exact Or.inr (Or.inr (Or.inr (Or.inr ((classify_eq_veryHot_iff t).mpr h30))))
  · intro tbl i
    simp only [classify_weather, List.getElem?_map]
    cases tbl[i]? <;> rfl

/-- Claim C6 counterexample: a positive-infinity temperature does not get
the fallback label: float `+inf >= 30` is true, so `np.select` picks
`"Very Hot"`, not `"Unknown"`. -/
theorem classifier_posInf_not_unknown :
    classifyF FVal.posInf = "Very Hot" ∧ classifyF FVal.posInf ≠ "Unknown" := by
  constructor <;> decide

/-- Claim C6 (amended): the classifier yields `"Unknown"` exactly for NaN
temperatures; `+Infinity` classifies as `"Very Hot"` (it satisfies
`temperature >= 30`) and `-Infinity` as `"Very Cold"` (it satisfies
`temperature < 0`); no finite temperature yields `"Unknown"`. -/
theorem classifier_unknown_iff_nan :
    (∀ v : FVal, classifyF v = "Unknown" ↔ v = FVal.nan) ∧
    classifyF FVal.posInf = "Very Hot" ∧ classifyF FVal.negInf = "Very Cold" := by
  refine ⟨?_, by decide, by decide⟩
  intro v
  cases v with
  | finite q =>
    simp only [iff_false, reduceCtorEq]
    exact classify_finite_ne_unknown q
  | posInf => decide
  | negInf => decide
  | nan => decide

/-- Map with the element's 0-based position, starting the count at `n`. -/
def mapWithIndexGo {α β : Type} (f : Nat → α → β) : Nat → List α → List β
  | _, [] => []
  | n, x :: xs => f n x :: mapWithIndexGo f (n + 1) xs

/-- Map with the element's 0-based position (row-wise view of a pandas
column assignment that depends on the row index). -/
def mapWithIndex {α β : Type} (f : Nat → α → β) (l : List α) : List β :=
  mapWithIndexGo f 0 l

theorem length_mapWithIndexGo {α β : Type} (f : Nat → α → β) (n : Nat) (l : List α) :
    (mapWithIndexGo f n l).length = l.length := by
  induction l generalizing n with
  | nil => rfl
  | cons x xs ih => simp [mapWithIndexGo, ih]

theorem getElem?_mapWithIndexGo {α β : Type} (f : Nat → α → β) (n : Nat) (l : List α) (i : Nat) :
    (mapWithIndexGo f n l)[i]? = (l[i]?).map (f (n + i)) := by
  induction l generalizing n i with
  | nil => simp [mapWithIndexGo]
  | cons x xs ih =>
    cases i with
    | zero => simp [mapWithIndexGo]
    | succ j =>
      simp only [mapWithIndexGo, List.getElem?_cons_succ, ih (n + 1) j]
      have : n + 1 + j = n + (j + 1) := by omega
      rw [this]

theorem getElem?_mapWithIndex {α β : Type} (f : Nat → α → β) (l : List α) (i : Nat) :
    (mapWithIndex f l)[i]? = (l[i]?).map (f i) := by
  have := getElem?_mapWithIndexGo f 0 l i
  simpa [mapWithIndex] using this

theorem length_mapWithIndex {α β : Type} (f : Nat → α → β) (l : List α) :
    (mapWithIndex f l).length = l.length :=
  length_mapWithIndexGo f 0 l

theorem mapWithIndexGo_eq_map {α β : Type} (f : Nat → α → β) (g : α → β) (n : Nat) (l : List α)
    (h : ∀ i x, f i x = g x) : mapWithIndexGo f n l = l.map g := by
  induction l generalizing n with
  | nil => rfl
  | cons x xs ih => simp [mapWithIndexGo, h, ih]

theorem map_mapWithIndexGo {α β γ : Type} (f : Nat → α → β) (g : β → γ) (n : Nat) (l : List α) :
    (mapWithIndexGo f n l).map g = mapWithIndexGo (fun i x => g (f i x)) n l := by
  induction l generalizing n with
  | nil => rfl
  | cons x xs ih => simp [mapWithIndexGo, ih]

/-- Row used only as the out-of-range default of `List.getD`; theorems
always guard the index, so its contents never matter. -/
def dfltRow : CRow := { city := "", date := 0, temperature := 0 }

theorem getD_map_temperature (l : List CRow) (j : Nat) :
    (l.map CRow.temperature).getD j 0 = (l.getD j dfltRow).temperature := by
  induction l generalizing j with
  | nil => rfl
  | cons x xs ih =>
    cases j with
    | zero => rfl
    | succ k => simpa using ih k

/-- Column mean of pandas `Series.mean()`: sum over count (the cleaned
column holds no NaN, so `skipna` is moot). -/
def meanQ (xs : List ℚ) : ℚ := xs.sum / (xs.length : ℚ)

/-- The square of pandas `Series.std()` with its default `ddof=1`: sum of
squared deviations from the mean, divided by `n - 1`. The variance is
carried instead of the standard deviation so the embedding stays inside
`ℚ`; `gt_add_two_sqrt_iff` recovers the square-root reading. -/
def sampleVarVal (xs : List ℚ) : ℚ :=
  ((xs.map fun x => (x - meanQ xs) ^ 2).sum) / ((xs.length : ℚ) - 1)

/-- `Series.std(ddof=1)` is NaN when fewer than two values are present;
`none` is that NaN. -/
def sampleVar (xs : List ℚ) : Option ℚ :=
  if 2 ≤ xs.length then some (sampleVarVal xs) else none

/-- The `np.select` of `detect_anomalies` (src/main.py, lines 91-97) for a
single row: first condition `temperature > mean + 2*std`, second
`temperature < mean - 2*std`, default `"Normal"`. A NaN standard deviation
(`none`) makes both comparisons false. `t > m + 2*std` is stored root-free
as `0 < t - m ∧ 4*var < (t - m)^2`, which `gt_add_two_sqrt_iff` proves
equivalent. -/
def anomalyOf (t m : ℚ) (v : Option ℚ) : String :=
  match v with
  | none => "Normal"
  | some v =>
    if 0 < t - m ∧ 4 * v < (t - m) ^ 2 then "High anomaly"
    else if 0 < m - t ∧ 4 * v < (m - t) ^ 2 then "Low anomaly"
    else "Normal"

/-- `Series.rolling(window=3).mean()` at row `i`: the trailing 3-row mean,
NaN (`none`) for the first two rows (window needs 3 values). -/
def rollingAvg3 (xs : List ℚ) (i : Nat) : Option ℚ :=
  if 2 ≤ i then some ((xs.getD (i - 2) 0 + xs.getD (i - 1) 0 + xs.getD i 0) / 3) else none

/-- `detect_anomalies` (src/main.py, lines 83-103): adds the `rolling_avg`
column and the `anomaly` column computed from the global mean and sample
standard deviation of the whole `temperature` column. -/
def detect_anomalies (tbl : List CRow) : List CRow :=
  mapWithIndex
    (fun i r =>
      { r with
        rolling_avg := rollingAvg3 (tbl.map CRow.temperature) i,
        anomaly := some (anomalyOf r.temperature (meanQ (tbl.map CRow.temperature))
          (sampleVar (tbl.map CRow.temperature))) })
    tbl

theorem length_detect_anomalies (tbl : List CRow) :
    (detect_anomalies tbl).length = tbl.length :=
  length_mapWithIndex _ tbl

theorem detect_anomalies_getD (tbl : List CRow) (i : Nat) (hi : i < tbl.length) :
    (detect_anomalies tbl).getD i dfltRow =
      { tbl.getD i dfltRow with
        rolling_avg := rollingAvg3 (tbl.map CRow.temperature) i,
        anomaly := some (anomalyOf (tbl.getD i dfltRow).temperature
          (meanQ (tbl.map CRow.temperature)) (sampleVar (tbl.map CRow.temperature))) } := by
  have h1 : (detect_anomalies tbl)[i]? = (tbl[i]?).map _ := getElem?_mapWithIndex _ tbl i
  rw [List.getD_eq_getElem?_getD, h1, List.getElem?_eq_getElem hi]
  rw [List.getD_eq_getElem?_getD, List.getElem?_eq_getElem hi]
  rfl

theorem detect_anomalies_anomaly_getD (tbl : List CRow) (i : Nat) (hi : i < tbl.length) :
    ((detect_anomalies tbl).getD i dfltRow).anomaly =
      some (anomalyOf (tbl.getD i dfltRow).temperature (meanQ (tbl.map CRow.temperature))
        (sampleVar (tbl.map CRow.temperature))) := by
  rw [detect_anomalies_getD tbl i hi]

theorem detect_anomalies_rollingAvg_getD (tbl : List CRow) (i : Nat) (hi : i < tbl.length) :
    ((detect_anomalies tbl).getD i dfltRow).rolling_avg =
      rollingAvg3 (tbl.map CRow.temperature) i := by
  rw [detect_anomalies_getD tbl i hi]

/-- The root-free comparison used by the embedding agrees with the
square-root form of the spec: `a > b + 2*sqrt v` holds exactly when
`a - b` is positive with `(a - b)^2 > 4*v` (for the variances at hand
`v ≥ 0`, see `sampleVarVal_nonneg`; `Real.sqrt` clamps a negative argument
to 0, so the equivalence needs no sign hypothesis). -/
theorem gt_add_two_sqrt_iff (a b v : ℚ) :
    ((b : ℝ) + 2 * Real.sqrt (v : ℝ) < (a : ℝ)) ↔ (0 < a - b ∧ 4 * v < (a - b) ^ 2) := by
  have hs : (0 : ℝ) ≤ Real.sqrt (v : ℝ) := Real.sqrt_nonneg _
  have h4 : Real.sqrt ((4 : ℝ) * v) = 2 * Real.sqrt (v : ℝ) := by
    rw [Real.sqrt_mul (by norm_num) (v : ℝ),
      show ((4 : ℝ)) = 2 ^ 2 by norm_num, Real.sqrt_sq (by norm_num : (0 : ℝ) ≤ 2)]
  constructor
  · intro h
    have hab : (0 : ℝ) < (a : ℝ) - b := by linarith
    have hab' : (0 : ℚ) < a - b := by exact_mod_cast hab
    refine ⟨hab', ?_⟩
    have h2 : Real.sqrt ((4 : ℝ) * v) < (a : ℝ) - b := by rw [h4]; linarith
    have h3 : (4 : ℝ) * v < ((a : ℝ) - b) ^ 2 := (Real.sqrt_lt' hab).mp h2
    exact_mod_cast h3
  · rintro ⟨h1, h2⟩
    have h1' : (0 : ℝ) < (a : ℝ) - b := by exact_mod_cast h1
    have h2' : (4 : ℝ) * v < ((a : ℝ) - b) ^ 2 := by exact_mod_cast h2
    have h3 : Real.sqrt ((4 : ℝ) * v) < (a : ℝ) - b := (Real.sqrt_lt' h1').mpr h2'
    rw [h4] at h3
    linarith

theorem sampleVarVal_nonneg (xs : List ℚ) (h2 : 2 ≤ xs.length) : 0 ≤ sampleVarVal xs := by
  unfold sampleVarVal
  apply div_nonneg
  · apply List.sum_nonneg
    intro x hx
    simp only [List.mem_map] at hx
    obtain ⟨y, _, rfl⟩ := hx
    positivity
  · have h : (2 : ℚ) ≤ (xs.length : ℚ) := by exact_mod_cast h2
    linarith

/-- Claim C1: on a table with at least 2 rows, `detect_anomalies` labels a
row `"High anomaly"` exactly when its temperature exceeds `mean + 2*std`,
`"Low anomaly"` exactly when (the High rule not firing) it is below
`mean - 2*std`, and `"Normal"` exactly otherwise, where `mean` and `std`
are the mean and the `ddof=1` sample standard deviation of the whole
`temperature` column (not per city), each row judged independently and the
High condition checked first. -/
theorem detect_anomaly_two_sigma (tbl : List CRow) (h2 : 2 ≤ tbl.length) (i : Nat)
    (hi : i < tbl.length) :
    (((detect_anomalies tbl).getD i dfltRow).anomaly = some "High anomaly" ↔
      ((meanQ (tbl.map CRow.temperature) : ℝ) +
          2 * Real.sqrt ((sampleVarVal (tbl.map CRow.temperature) : ℝ)) <
        ((tbl.getD i dfltRow).temperature : ℝ))) ∧
    (((detect_anomalies tbl).getD i dfltRow).anomaly = some "Low anomaly" ↔
      (¬ ((meanQ (tbl.map CRow.temperature) : ℝ) +
            2 * Real.sqrt ((sampleVarVal (tbl.map CRow.temperature) : ℝ)) <
          ((tbl.getD i dfltRow).temperature : ℝ)) ∧
        ((tbl.getD i dfltRow).temperature : ℝ) <
          (meanQ (tbl.map CRow.temperature) : ℝ) -
            2 * Real.sqrt ((sampleVarVal (tbl.map CRow.temperature) : ℝ)))) ∧
    (((detect_anomalies tbl).getD i dfltRow).anomaly = some "Normal" ↔
      (¬ ((meanQ (tbl.map CRow.temperature) : ℝ) +
            2 * Real.sqrt ((sampleVarVal (tbl.map CRow.temperature) : ℝ)) <
          ((tbl.getD i dfltRow).temperature : ℝ)) ∧
        ¬ (((tbl.getD i dfltRow).temperature : ℝ) <
          (meanQ (tbl.map CRow.temperature) : ℝ) -
            2 * Real.sqrt ((sampleVarVal (tbl.map CRow.temperature) : ℝ))))) := by
  have hsv : sampleVar (tbl.map CRow.temperature) =
      some (sampleVarVal (tbl.map CRow.temperature)) := by
    simp [sampleVar, h2]
  have han : ((detect_anomalies tbl).getD i dfltRow).anomaly =
      some (anomalyOf (tbl.getD i dfltRow).temperature (meanQ (tbl.map CRow.temperature))
        (some (sampleVarVal (tbl.map CRow.temperature)))) := by
    rw [detect_anomalies_anomaly_getD tbl i hi, hsv]
  set t := (tbl.getD i dfltRow).temperature with ht
  set m := meanQ (tbl.map CRow.temperature) with hm
  set v := sampleVarVal (tbl.map CRow.temperature) with hvv
  have hHigh : (0 < t - m ∧ 4 * v < (t - m) ^ 2) ↔
      ((m : ℝ) + 2 * Real.sqrt (v : ℝ) < (t : ℝ)) := (gt_add_two_sqrt_iff t m v).symm
  have hLow : (0 < m - t ∧ 4 * v < (m - t) ^ 2) ↔
      ((t : ℝ) < (m : ℝ) - 2 * Real.sqrt (v : ℝ)) := by
    rw [(gt_add_two_sqrt_iff m t v).symm]
    constructor <;> intro h <;> linarith
  rw [han]
  by_cases hH : 0 < t - m ∧ 4 * v < (t - m) ^ 2
  · have ha : anomalyOf t m (some v) = "High anomaly" := by
      simp only [anomalyOf, if_pos hH]
    rw [ha]
    have hs : (m : ℝ) + 2 * Real.sqrt (v : ℝ) < (t : ℝ) := hHigh.mp hH
    refine ⟨?_, ?_, ?_⟩
    · simp [hs]
    · constructor
      · intro hcon; exact absurd hcon (by decide)
      · rintro ⟨hns, _⟩; exact absurd hs hns
    · constructor
      · intro hcon; exact absurd hcon (by decide)
      · rintro ⟨hns, _⟩; exact absurd hs hns
  · by_cases hL : 0 < m - t ∧ 4 * v < (m - t) ^ 2
    · have ha : anomalyOf t m (some v) = "Low anomaly" := by
        simp only [anomalyOf, if_neg hH, if_pos hL]
      rw [ha]
      have hs : (t : ℝ) < (m : ℝ) - 2 * Real.sqrt (v : ℝ) := hLow.mp hL
      have hns : ¬ ((m : ℝ) + 2 * Real.sqrt (v : ℝ) < (t : ℝ)) := fun hc => hH (hHigh.mpr hc)
      refine ⟨?_, ?_, ?_⟩
      · constructor
        · intro hcon; exact absurd hcon (by decide)
        · intro hc; exact absurd (hHigh.mpr hc) hH
      · simp [hns, hs]
      · constructor
        · intro hcon; exact absurd hcon (by decide)
        · rintro ⟨_, hnl⟩; exact absurd hs hnl
    · have ha : anomalyOf t m (some v) = "Normal" := by
        simp only [anomalyOf, if_neg hH, if_neg hL]
      rw [ha]
      have hns : ¬ ((m : ℝ) + 2 * Real.sqrt (v : ℝ) < (t : ℝ)) := fun hc => hH (hHigh.mpr hc)
      have hnl : ¬ ((t : ℝ) < (m : ℝ) - 2 * Real.sqrt (v : ℝ)) := fun hc => hL (hLow.mpr hc)
      refine ⟨?_, ?_, ?_⟩
      · constructor
        · intro hcon; exact absurd hcon (by decide)
        · intro hc; exact absurd hc hns
      · constructor
        · intro hcon; exact absurd hcon (by decide)
        · rintro ⟨_, hc⟩; exact absurd hc hnl
      · simp [hns, hnl]

/-- Claim C2: `rolling_avg` at 0-based row `i` of a table equals the
arithmetic mean of the temperatures at rows `i-2`, `i-1`, `i` whenever
`i ≥ 2`, and is absent (NaN) at rows 0 and 1 — no partial-window mean. -/
theorem detect_rolling_window (tbl : List CRow) (i : Nat) (hi : i < tbl.length) :
    (2 ≤ i → ((detect_anomalies tbl).getD i dfltRow).rolling_avg =
      some (((tbl.getD (i - 2) dfltRow).temperature + (tbl.getD (i - 1) dfltRow).temperature +
        (tbl.getD i dfltRow).temperature) / 3)) ∧
    (i < 2 → ((detect_anomalies tbl).getD i dfltRow).rolling_avg = none) := by
  have hra := detect_anomalies_rollingAvg_getD tbl i hi
  constructor
  · intro h2i
    rw [hra]
    simp only [rollingAvg3, if_pos h2i]
    rw [getD_map_temperature, getD_map_temperature, getD_map_temperature]
  · intro hlt
    rw [hra]
    simp only [rollingAvg3]
    rw [if_neg (by omega)]

/-- Claim C7: on a table with fewer than 2 rows the sample standard
deviation is NaN, every comparison against it is false, and
`detect_anomalies` therefore labels every row `"Normal"` instead of
raising. -/
theorem detect_small_normal (tbl : List CRow) (h : tbl.length < 2) :
    (detect_anomalies tbl).map CRow.anomaly = tbl.map (fun _ => some "Normal") := by
  have hsv : sampleVar (tbl.map CRow.temperature) = none := by
    simp only [sampleVar, List.length_map]
    rw [if_neg (by omega)]
  unfold detect_anomalies mapWithIndex
  rw [map_mapWithIndexGo]
  apply mapWithIndexGo_eq_map
  intro i r
  simp [hsv, anomalyOf]

/-- Claim C10: `detect_anomalies` and `classify_weather` keep the row
count, the row order and each row's `city`, `date` and `temperature`
values; `detect_anomalies` writes only `rolling_avg` and `anomaly`
(leaving `condition` alone) and `classify_weather` writes only `condition`
(leaving `rolling_avg` and `anomaly` alone). -/
theorem stages_frame (tbl : List CRow) :
    (detect_anomalies tbl).length = tbl.length ∧
    (classify_weather tbl).length = tbl.length ∧
    (detect_anomalies tbl).map (fun r => (r.city, r.date, r.temperature, r.condition)) =
      tbl.map (fun r => (r.city, r.date, r.temperature, r.condition)) ∧
    (classify_weather tbl).map (fun r => (r.city, r.date, r.temperature, r.rolling_avg, r.anomaly)) =
      tbl.map (fun r => (r.city, r.date, r.temperature, r.rolling_avg, r.anomaly)) := by
  refine ⟨length_detect_anomalies tbl, by simp [classify_weather], ?_, ?_⟩
  · unfold detect_anomalies mapWithIndex
    rw [map_mapWithIndexGo]
    apply mapWithIndexGo_eq_map
    intro i r
    rfl
  · rw [classify_weather, List.map_map]
    rfl

/-- Claim C9: the classifier is idempotent: re-running `classify_weather`
on already-classified output returns the very same table, in particular
identical `condition` values for every row. -/
theorem classify_idempotent :
    ∀ tbl : List CRow, classify_weather (classify_weather tbl) = classify_weather tbl := by
  intro tbl
  simp only [classify_weather, List.map_map]
  rfl

/-- A raw observation row before cleaning. The upstream producer delivers
`city` as text and `date` and `temperature` as text cells; what
`clean_weather_data` uses of a cell is only the outcome of its coercion,
so each cell is carried as that parse result: `none` is the missing marker
that `pd.to_numeric(..., errors="coerce")` or
`pd.to_datetime(..., errors="coerce")` produces for an unparseable cell. -/
structure RawRow where
  city : String
  date : Option Int
  temperature : Option ℚ
deriving DecidableEq, Repr

/-- The raw table handed to the Cleaner. Column presence is schema-wide,
so the two required columns are table-level flags. -/
structure RawTable where
  hasDate : Bool := true
  hasTemp : Bool := true
  rows : List RawRow
deriving DecidableEq, Repr

/-- Failure of `df["temperature"]` or `df["date"]` when the column is
absent (the KeyError of pandas; the spec calls it `SchemaError`). -/
inductive SchemaError where
  | missingColumn (name : String)
deriving DecidableEq, Repr

/-- Coercion of one row's two cells; `df.dropna()` then removes every row
holding at least one missing marker, so a row survives exactly when both
parse results are present. -/
def coerceRow (r : RawRow) : Option CRow :=
  match r.date, r.temperature with
  | some d, some q => some { city := r.city, date := d, temperature := q }
  | _, _ => none

/-- `df.sort_values(by="date")`: rows reordered ascending by date. For at
most 16 rows numpy's default argsort runs a stable insertion sort, which
this definition matches exactly; for larger inputs numpy's introsort
yields the same multiset sorted by date but its tie order is an internal
detail of numpy that this embedding does not reproduce. -/
def sortByDate (l : List CRow) : List CRow :=
  List.insertionSort (fun a b => a.date ≤ b.date) l

/-- `clean_weather_data` (src/main.py, lines 39-60): empty tables pass
through; a missing `temperature` column fails first (it is accessed
first), then a missing `date` column; otherwise both columns are coerced,
rows with a missing marker are dropped, and the survivors are sorted by
date. -/
def clean_weather_data (t : RawTable) : Except SchemaError (List CRow) :=
  if t.rows.isEmpty then Except.ok []
  else if t.hasTemp = false then Except.error (SchemaError.missingColumn "temperature")
  else if t.hasDate = false then Except.error (SchemaError.missingColumn "date")
  else Except.ok (sortByDate (t.rows.filterMap coerceRow))

instance : IsTotal CRow (fun a b => a.date ≤ b.date) :=
  ⟨fun a b => le_total a.date b.date⟩

instance : IsTrans CRow (fun a b => a.date ≤ b.date) :=
  ⟨fun _ _ _ h1 h2 => le_trans h1 h2⟩

theorem sortByDate_perm (l : List CRow) : (sortByDate l).Perm l :=
  List.perm_insertionSort _ l

theorem sortByDate_sorted (l : List CRow) :
    (sortByDate l).Sorted (fun a b => a.date ≤ b.date) :=
  List.sorted_insertionSort _ l

theorem length_sortByDate (l : List CRow) : (sortByDate l).length = l.length :=
  (sortByDate_perm l).length_eq

theorem length_filterMap_coerce (l : List RawRow) :
    (l.filterMap coerceRow).length +
      (l.filter fun r => r.date.isNone || r.temperature.isNone).length = l.length := by
  induction l with
  | nil => rfl
  | cons r rs ih =>
    rcases hd : r.date with _ | d <;> rcases ht : r.temperature with _ | q <;>
      simp [List.filterMap_cons, List.filter_cons, coerceRow, hd, ht] <;> omega

/-- Claim C4: for a non-empty table with both required columns, cleaning
returns a table whose row count is the input count minus the number of
rows with an unparseable `date` or `temperature` cell — those two coerced
fields alone decide removal — and in particular never more rows than came
in. -/
theorem clean_row_count (t : RawTable) (hne : t.rows ≠ []) (ht : t.hasTemp = true)
    (hd : t.hasDate = true) :
    ∃ out, clean_weather_data t = Except.ok out ∧
      out.length = t.rows.length -
        (t.rows.filter fun r => r.date.isNone || r.temperature.isNone).length ∧
      out.length ≤ t.rows.length := by
  have hE : t.rows.isEmpty = false := by
    cases h : t.rows with
    | nil => exact absurd h hne
    | cons a as => rfl
  refine ⟨sortByDate (t.rows.filterMap coerceRow), ?_, ?_, ?_⟩
  · unfold clean_weather_data
    rw [hE, ht, hd]
    rfl
  · have hc := length_filterMap_coerce t.rows
    rw [length_sortByDate]
    omega
  · have hc := length_filterMap_coerce t.rows
    rw [length_sortByDate]
    omega

/-- Claim C8: a non-empty table lacking the `temperature` column (or the
`date` column) makes `clean_weather_data` fail with a `SchemaError`
instead of returning any table. -/
theorem clean_schema_error (t : RawTable) (hne : t.rows ≠ [])
    (h : t.hasTemp = false ∨ t.hasDate = false) :
    ∃ e, clean_weather_data t = Except.error e := by
  have hE : t.rows.isEmpty = false := by
    cases hr : t.rows with
    | nil => exact absurd hr hne
    | cons a as => rfl
  unfold clean_weather_data
  rw [hE]
  rcases h with h | h
  · exact ⟨SchemaError.missingColumn "temperature", by rw [h]; rfl⟩
  · cases htv : t.hasTemp with
    | false => exact ⟨SchemaError.missingColumn "temperature", by rfl⟩
    | true => exact ⟨SchemaError.missingColumn "date", by rw [h]; rfl⟩

/-- Cleaned row with a given date and temperature, used by the concrete
witness tables. -/
def wRow (d : Int) (q : ℚ) : CRow := { city := "A", date := d, temperature := q }

def wTbl1 : List CRow := [wRow 0 5]

def wTbl2 : List CRow := [wRow 0 0, wRow 1 100]

def wTbl3 : List CRow := [wRow 0 10, wRow 1 20, wRow 2 30]

def wRawT : RawTable :=
  { rows := [{ city := "A", date := some 1, temperature := some 5 },
             { city := "B", date := none, temperature := some 3 },
             { city := "C", date := some 2, temperature := none }] }

def wRawNoTemp : RawTable :=
  { hasTemp := false, rows := [{ city := "A", date := some 1, temperature := some 5 }] }

theorem detect_anomaly_two_sigma_witness :
    2 ≤ wTbl2.length ∧
    (((detect_anomalies wTbl2).getD 1 dfltRow).anomaly = some "High anomaly" ↔
      ((meanQ (wTbl2.map CRow.temperature) : ℝ) +
          2 * Real.sqrt ((sampleVarVal (wTbl2.map CRow.temperature) : ℝ)) <
        ((wTbl2.getD 1 dfltRow).temperature : ℝ))) :=
  ⟨by decide, (detect_anomaly_two_sigma wTbl2 (by decide) 1 (by decide)).1⟩

theorem detect_rolling_window_witness :
    (2 ≤ 2 → ((detect_anomalies wTbl3).getD 2 dfltRow).rolling_avg =
      some (((wTbl3.getD 0 dfltRow).temperature + (wTbl3.getD 1 dfltRow).temperature +
        (wTbl3.getD 2 dfltRow).temperature) / 3)) ∧
    (2 < 2 → ((detect_anomalies wTbl3).getD 2 dfltRow).rolling_avg = none) :=
  detect_rolling_window wTbl3 2 (by decide)

theorem detect_small_normal_witness :
    wTbl1.length < 2 ∧
      (detect_anomalies wTbl1).map CRow.anomaly = wTbl1.map (fun _ => some "Normal") :=
  ⟨by decide, detect_small_normal wTbl1 (by decide)⟩

theorem clean_row_count_witness :
    wRawT.rows ≠ [] ∧ wRawT.hasTemp = true ∧ wRawT.hasDate = true ∧
    (∃ out, clean_weather_data wRawT = Except.ok out ∧
      out.length = wRawT.rows.length -
        (wRawT.rows.filter fun r => r.date.isNone || r.temperature.isNone).length ∧
      out.length ≤ wRawT.rows.length) :=
  ⟨by decide, by decide, by decide, clean_row_count wRawT (by decide) (by decide) (by decide)⟩

theorem clean_schema_error_witness :
    wRawNoTemp.rows ≠ [] ∧ (wRawNoTemp.hasTemp = false ∨ wRawNoTemp.hasDate = false) ∧
    (∃ e, clean_weather_data wRawNoTemp = Except.error e) :=
  ⟨by decide, by decide, clean_schema_error wRawNoTemp (by decide) (by decide)⟩

end CouncilWeather
